import Mathlib

/-!
Verification of the ComfyUI-Contact-Sheet-Selector selection-state and
preview-cache subsystem.

The definitions below are a shallow embedding of
`src/contact_sheet_selector/state.py` and the relevant parts of
`src/contact_sheet_selector/node.py`.  Python integers are modelled as `Int`
(selections can contain negative values posted by the UI), batch sizes as
`Nat`, the process-wide per-node state table as a function from node ids to
optional state records, and the lock-guarded mutating operations as pure
state-passing functions that return their value together with the updated
table.
-/

/-- Mirror of the `NodeSelectionState` dataclass in `state.py`.  The
Python field `preview_token` holds `tuple(token)` of whatever was passed to
`update_preview_cache`; since `node.py` passes the signature *string*, the
stored tuple is a tuple of characters, modelled as `List Char`. -/
structure NodeSelectionState where
  active : List Int := []
  pending : Option (List Int) := none
  last_batch_size : Nat := 0
  preview_token : Option (List Char) := none
  preview_data : List String := []
deriving DecidableEq, Repr

/-- The process-wide `_selection_state` table, keyed by node id. -/
def Store : Type := String → Option NodeSelectionState

/-- The table at process start: no node has state yet. -/
def emptyStore : Store := fun _ => none

/-- Writing one node's state back into the table (the net effect of the
lock-guarded mutations in `state.py`). -/
def setStore (m : Store) (node_id : String) (st : NodeSelectionState) : Store :=
  fun key => if key = node_id then some st else m key

/-- `list(range(batch_size))` as a list of integers: the full index range. -/
def fullRange (batch_size : Nat) : List Int :=
  (List.range batch_size).map (fun k : Nat => (k : Int))

/-- Insert a value into a strictly-sorted list, skipping duplicates.
Folding this over a list reproduces Python's `sorted({...})`: the sorted
list of the distinct elements. -/
def insertUnique (x : Int) : List Int → List Int
  | [] => [x]
  | y :: ys =>
      if x < y then x :: y :: ys
      else if x = y then y :: ys
      else y :: insertUnique x ys

/-- `sorted(set(l))` for a list of integers. -/
def sortedDedup (l : List Int) : List Int := l.foldr insertUnique []

/-- Mirror of `_sanitize_selection` in `state.py`:
`sorted({idx for idx in selection if 0 <= idx < batch_size})`. -/
def sanitize_selection (selection : List Int) (batch_size : Nat) : List Int :=
  sortedDedup (selection.filter (fun idx => decide (0 ≤ idx ∧ idx < (batch_size : Int))))

/-- The seeding step shared by `get_state` and
`resolve_selection_for_execution` in `state.py`:
`if not state.active: state.active = list(range(batch_size))`. -/
def seeded_active (st : NodeSelectionState) (batch_size : Nat) : List Int :=
  if st.active = [] then fullRange batch_size else st.active

/-- The sanitised active selection with full-range fallback:
`_sanitize_selection(state.active, batch_size) or list(range(batch_size))`
applied after the seeding step. -/
def resolved_active (st : NodeSelectionState) (batch_size : Nat) : List Int :=
  if sanitize_selection (seeded_active st batch_size) batch_size = []
  then fullRange batch_size
  else sanitize_selection (seeded_active st batch_size) batch_size

/-- The pending-handling step of `resolve_selection_for_execution`:
sanitise a present pending selection, and drop it (`pending = None`) when
`original_pending is not None and pending == []`. -/
def resolved_pending (st : NodeSelectionState) (batch_size : Nat) : Option (List Int) :=
  if st.pending ≠ none ∧
      st.pending.map (fun q => sanitize_selection q batch_size) = some []
  then none
  else st.pending.map (fun q => sanitize_selection q batch_size)

/-- Mirror of `get_state` in `state.py` (lines 40-58): fetch or initialise
the state for a node, defaulting / resetting `active` to the full batch and
recording the batch size.  Returns the state together with the updated
table. -/
def get_state (m : Store) (node_id : String) (batch_size : Nat) :
    NodeSelectionState × Store :=
  let st := (m node_id).getD {}
  let st2 := { st with
    active := resolved_active st batch_size,
    last_batch_size := batch_size }
  (st2, setStore m node_id st2)

/-- Mirror of `resolve_selection_for_execution` in `state.py` (lines
61-105): compute this run's output selection and commit it as the next
baseline, consuming any pending selection.  Returns
`((selection_for_output, state.active), table)`. -/
def resolve_selection_for_execution (m : Store) (node_id : String)
    (batch_size : Nat) : (List Int × List Int) × Store :=
  let st := (m node_id).getD {}
  let selection_for_output :=
    (resolved_pending st batch_size).getD (resolved_active st batch_size)
  let st2 := { st with
    active := selection_for_output,
    pending := none,
    last_batch_size := batch_size }
  ((selection_for_output, st2.active), setStore m node_id st2)

/-- Python's `max(selection, default=-1)`. -/
def pyMax (l : List Int) (d : Int) : Int :=
  match l with
  | [] => d
  | x :: xs => xs.foldl max x

/-- The batch-size estimate of `queue_pending_selection`:
`highest_index + 1 if highest_index >= 0 else 0`. -/
def inferred_batch_size (selection : List Int) : Nat :=
  if 0 ≤ pyMax selection (-1) then (pyMax selection (-1) + 1).toNat else 0

/-- The pending value committed by `queue_pending_selection`: discarded
(`None`) when a non-empty selection sanitises to empty, the explicit
cleared marker (`[]`) for an empty upload, and the sanitised list
otherwise. -/
def queued_pending_value (selection sanitized : List Int) : Option (List Int) :=
  if selection ≠ [] ∧ sanitized = [] then none
  else if selection = [] then some []
  else some sanitized

/-- Mirror of `queue_pending_selection` in `state.py` (lines 108-144):
store a pending selection uploaded from the UI, sanitised against
`max(state.last_batch_size, inferred size)`, and return the sanitised list
together with the updated table. -/
def queue_pending_selection (m : Store) (node_id : String)
    (selection : List Int) : List Int × Store :=
  let st := (m node_id).getD {}
  let batch_size := max st.last_batch_size (inferred_batch_size selection)
  let sanitized := sanitize_selection selection batch_size
  (sanitized,
   setStore m node_id { st with pending := queued_pending_value selection sanitized })

/-- Mirror of `inspect_state` in `state.py` (lines 147-159): a copy of the
node's state, or `none` when the node has no state.  The copy maps a falsy
(empty) `preview_token` to `None`, exactly as
`tuple(state.preview_token) if state.preview_token else None` does. -/
def inspect_state (m : Store) (node_id : String) : Option NodeSelectionState :=
  (m node_id).map (fun st =>
    { active := st.active
      pending := st.pending
      last_batch_size := st.last_batch_size
      preview_token :=
        match st.preview_token with
        | some (c :: cs) => some (c :: cs)
        | _ => none
      preview_data := st.preview_data })

/-- Mirror of `get_preview_cache` in `state.py` (lines 169-178): the cached
token and data, `(None, None)` when the node has no state or no cached
data. -/
def get_preview_cache (m : Store) (node_id : String) :
    Option (List Char) × Option (List String) :=
  match m node_id with
  | none => (none, none)
  | some st =>
      if st.preview_data = [] then (none, none)
      else
        (match st.preview_token with
         | some (c :: cs) => some (c :: cs)
         | _ => none,
         some st.preview_data)

/-- Mirror of `update_preview_cache` in `state.py` (lines 181-186).  The
Python code stores `tuple(token)`; `node.py` passes the signature *string*
as `token`, and `tuple` of a string is the tuple of its characters. -/
def update_preview_cache (m : Store) (node_id : String) (token : String)
    (data : List String) : Store :=
  let st := (m node_id).getD {}
  setStore m node_id { st with preview_token := some token.data, preview_data := data }

/-- Python equality between the cached token read back from the store (an
optional tuple of characters) and the freshly computed signature string.
In Python both `None == str` and `tuple == str` are `False`, whatever the
contents: equality between values of different types never holds. -/
def pyTokenEqSignature (cached : Option (List Char)) (sig : String) : Bool :=
  match cached, sig with
  | _, _ => false

/-- The preview-cache step of `ContactSheetSelector.execute` in `node.py`
(lines 146-159).  The batch enters only through its signature string, its
size and the per-index encoder, which stand for
`_compute_preview_signature(images)` and
`_encode_tensor_to_data_url(images[idx])` (opaque image/hashing runtime).
Returns `((preview_data, frames encoded this call), table)`; the encoding
`try` branch is modelled as total since encoder failures are out of scope
for the cache policy. -/
def execute_preview_step (m : Store) (node_id : String)
    (preview_signature : String) (batch_size : Nat) (encode : Nat → String) :
    (List String × Nat) × Store :=
  let cached := get_preview_cache m node_id
  if pyTokenEqSignature cached.1 preview_signature ∧ cached.2.getD [] ≠ []
  then ((cached.2.getD [], 0), m)
  else
    let preview_data := (List.range batch_size).map encode
    ((preview_data, batch_size),
     update_preview_cache m node_id preview_signature preview_data)

/-- The selection a fingerprint is computed from: the pending selection if
one is queued, else the active selection (`node.py` lines 186-189). -/
def read_selection (st : NodeSelectionState) : List Int :=
  match st.pending with
  | some p => p
  | none => st.active

/-- Mirror of `ContactSheetSelector.fingerprint_inputs` in `node.py`
(lines 176-198): `None` when the node has no state, otherwise the tuple
`selection + (batch_size, columns_value)` where `selection` is the pending
selection if queued else the active one.  The declared `columns` parameter
is modelled as the integer it is coerced to, and
`columns_value = max(0, columns)`. -/
def fingerprint_inputs (m : Store) (node_id : String) (columns : Int) :
    Option (List Int) :=
  match inspect_state m node_id with
  | none => none
  | some snapshot =>
      some (read_selection snapshot ++
        [(snapshot.last_batch_size : Int), max 0 columns])

/-- Decoded JSON values, as produced by `await request.json()` for the
selection endpoint.  JSON numbers that are not integers do not occur in
the claims and are not modelled. -/
inductive JVal where
  | jnull : JVal
  | jbool : Bool → JVal
  | jint : Int → JVal
  | jstr : String → JVal
  | jlist : List JVal → JVal
  | jobj : List (String × JVal) → JVal

/-- `data.get(key)` on a decoded JSON object; later duplicate keys win, as
in Python's `json.loads`. -/
def jGet (fields : List (String × JVal)) (key : String) : Option JVal :=
  (fields.reverse.find? (fun kv => kv.1 == key)).map (fun kv => kv.2)

/-- Python truthiness of a decoded JSON value (`if not node_id`). -/
def jTruthy : JVal → Bool
  | .jnull => false
  | .jbool b => b
  | .jint n => n != 0
  | .jstr s => s != ""
  | .jlist xs => !xs.isEmpty
  | .jobj fs => !fs.isEmpty

/-- Decimal digits to a number, `none` if empty or any non-digit. -/
def digitsToNat (cs : List Char) : Option Nat :=
  match cs with
  | [] => none
  | _ =>
      if cs.all Char.isDigit
      then some (cs.foldl (fun n c => n * 10 + (c.toNat - 48)) 0)
      else none

/-- Python's built-in `int(str)` on plain signed decimal literals: an
optional sign followed by digits.  Other accepted Python spellings
(surrounding whitespace, underscore separators) do not occur in the
claims' inputs and map to `none` here. -/
def pyIntOfString (s : String) : Option Int :=
  match s.data with
  | '-' :: rest => (digitsToNat rest).map (fun n => -(n : Int))
  | '+' :: rest => (digitsToNat rest).map (fun n => (n : Int))
  | cs => (digitsToNat cs).map (fun n => (n : Int))

/-- Python's built-in `int(x)` on a decoded JSON value: integers pass
through, booleans coerce to 0/1, numeric strings parse, and everything
else raises `TypeError`/`ValueError` (modelled as `none`). -/
def pyIntOfJVal : JVal → Option Int
  | .jint n => some n
  | .jbool b => some (if b then 1 else 0)
  | .jstr s => pyIntOfString s
  | _ => none

/-- The list comprehension `[int(idx) for idx in selection_raw]`: all
elements convert, or the comprehension raises (modelled as `none`). -/
def mapPyInt : List JVal → Option (List Int)
  | [] => some []
  | x :: xs =>
      match pyIntOfJVal x, mapPyInt xs with
      | some n, some ns => some (n :: ns)
      | _, _ => none

/-- Python `str()` of the decoded `node_id` value.  Scalars are rendered
exactly; the container renderings are abbreviated (they only influence the
store key, and no claim exercises a container node id). -/
def pyStr : JVal → String
  | .jstr s => s
  | .jint n => toString n
  | .jbool b => if b then "True" else "False"
  | .jnull => "None"
  | .jlist _ => "<list>"
  | .jobj _ => "<dict>"

/-- Responses of the selection endpoint: an error status with its
machine-readable code, or a 200 echoing the sanitised selection. -/
inductive HttpResponse where
  | errorResp : Nat → String → HttpResponse
  | okResp : List Int → HttpResponse
deriving DecidableEq, Repr

/-- The JSON key for the node id field. -/
def nodeIdKey : String := "node_id"

/-- The JSON key for the selection field. -/
def selectionKey : String := "selection"

/-- Mirror of the `update_selection` route handler in `node.py` (lines
209-237), for a request whose body already decoded to a JSON object (the
`invalid_json` branch is upstream of every claim considered here):
reject a falsy/missing node id, a non-list selection, and a selection with
an element `int()` cannot convert; otherwise queue the converted selection
and echo the sanitised result. -/
def update_selection (m : Store) (body : List (String × JVal)) :
    HttpResponse × Store :=
  match jGet body nodeIdKey with
  | none => (.errorResp 400 "missing_node_id", m)
  | some v =>
      if jTruthy v then
        match (jGet body selectionKey).getD (JVal.jlist []) with
        | .jlist xs =>
            match mapPyInt xs with
            | none => (.errorResp 400 "selection_contains_non_int", m)
            | some sel =>
                (.okResp (queue_pending_selection m (pyStr v) sel).1,
                 (queue_pending_selection m (pyStr v) sel).2)
        | _ => (.errorResp 400 "selection_must_be_list", m)
      else (.errorResp 400 "missing_node_id", m)

/-- The invariant of claim C4 over the whole table: whenever a node's
recorded batch size is positive, its active selection is non-empty. -/
def StoreInv (m : Store) : Prop :=
  ∀ node_id st, m node_id = some st → 0 < st.last_batch_size → st.active ≠ []

/-- A concrete node id used in the concrete scenarios below. -/
def nid : String := "n"

/-- Table after a first execution with batch size 2: active `[0, 1]`. -/
def clearedStore1 : Store :=
  (resolve_selection_for_execution emptyStore nid 2).2

/-- Table after the UI then posts an empty selection (the explicit
cleared marker `pending = []`). -/
def clearedStore2 : Store :=
  (queue_pending_selection clearedStore1 nid []).2

/-- Table after encoding a 2-frame batch with signature string `sig`
once: the cache holds the character-tuple of `sig` plus both previews. -/
def previewStore1 : Store :=
  (execute_preview_step emptyStore nid "sig" 2 (fun i => toString i)).2

/-- Table reached by: resolve batch 2, queue `[0]`, resolve batch 2,
queue `[5]` — state `active = [0]`, `pending = [5]`, batch size 2. -/
def fpStoreA : Store :=
  (queue_pending_selection
    (resolve_selection_for_execution
      (queue_pending_selection
        (resolve_selection_for_execution emptyStore nid 2).2 nid [0]).2
      nid 2).2
    nid [5]).2

/-- Same history as `fpStoreA` but queuing `[1]` in place of `[0]` —
state `active = [1]`, `pending = [5]`, batch size 2. -/
def fpStoreB : Store :=
  (queue_pending_selection
    (resolve_selection_for_execution
      (queue_pending_selection
        (resolve_selection_for_execution emptyStore nid 2).2 nid [1]).2
      nid 2).2
    nid [5]).2

/-- The state stored for `nid` in `fpStoreA`. -/
def stA0 : NodeSelectionState :=
  { active := [0], pending := some [5], last_batch_size := 2 }

/-- The state stored for `nid` in `fpStoreB`. -/
def stB0 : NodeSelectionState :=
  { active := [1], pending := some [5], last_batch_size := 2 }

/-- Table after a fresh node queues the always-out-of-range selection
`[5]`. -/
def staleStore : Store :=
  (queue_pending_selection emptyStore nid [5]).2

/-- Table after a first execution with batch size 1: active `[0]`,
recorded batch size 1. -/
def smallStore : Store :=
  (resolve_selection_for_execution emptyStore nid 1).2

/-- Endpoint body whose selection holds the numeric *string* `"3"`. -/
def c9body : List (String × JVal) :=
  [(nodeIdKey, JVal.jstr nid), (selectionKey, JVal.jlist [JVal.jstr "3"])]

/-- Endpoint body whose selection holds `null`, which `int()` rejects. -/
def c9bodyBad : List (String × JVal) :=
  [(nodeIdKey, JVal.jstr nid), (selectionKey, JVal.jlist [JVal.jnull])]

/-- Endpoint body with the integer selection `[4, 1, 1, 99]`. -/
def c9bodyGood : List (String × JVal) :=
  [(nodeIdKey, JVal.jstr nid),
   (selectionKey,
    JVal.jlist [JVal.jint 4, JVal.jint 1, JVal.jint 1, JVal.jint 99])]

theorem sortedDedup_of_pairwise :
    ∀ {l : List Int}, l.Pairwise (· < ·) → sortedDedup l = l := by
  intro l
  induction l with
  | nil => intro _; rfl
  | cons x xs ih =>
      intro h
      rcases List.pairwise_cons.mp h with ⟨hx, hxs⟩
      have hrec : sortedDedup (x :: xs) = insertUnique x (sortedDedup xs) := rfl
      rw [hrec, ih hxs]
      cases xs with
      | nil => rfl
      | cons y ys =>
          have hy : x < y := hx y (List.mem_cons_self y ys)
          simp [insertUnique, hy]

theorem pairwise_fullRange (batch_size : Nat) :
    (fullRange batch_size).Pairwise (· < ·) := by
  unfold fullRange
  rw [List.pairwise_map]
  refine (List.pairwise_lt_range batch_size).imp ?_
  intro a b hab
  omega

theorem sanitize_fullRange (batch_size : Nat) :
    sanitize_selection (fullRange batch_size) batch_size = fullRange batch_size := by
  unfold sanitize_selection
  have hf : (fullRange batch_size).filter
      (fun idx => decide (0 ≤ idx ∧ idx < (batch_size : Int)))
      = fullRange batch_size := by
    rw [List.filter_eq_self]
    intro a ha
    obtain ⟨k, hk, rfl⟩ := List.mem_map.mp ha
    have hklt : k < batch_size := List.mem_range.mp hk
    simp only [decide_eq_true_eq]
    omega
  rw [hf, sortedDedup_of_pairwise (pairwise_fullRange batch_size)]

theorem fullRange_ne_nil {batch_size : Nat} (h : 0 < batch_size) :
    fullRange batch_size ≠ [] := by
  unfold fullRange
  intro hc
  rw [List.map_eq_nil_iff, List.range_eq_nil] at hc
  omega

theorem resolved_active_ne_nil (st : NodeSelectionState) {batch_size : Nat}
    (h : 0 < batch_size) : resolved_active st batch_size ≠ [] := by
  unfold resolved_active
  split
  · exact fullRange_ne_nil h
  · assumption

theorem resolved_pending_ne_some_nil (st : NodeSelectionState) (batch_size : Nat) :
    resolved_pending st batch_size ≠ some [] := by
  unfold resolved_pending
  split
  · simp
  · rename_i hcond
    intro hmap
    apply hcond
    refine ⟨?_, hmap⟩
    cases hp : st.pending with
    | none => rw [hp] at hmap; simp at hmap
    | some q => simp [hp]

theorem storeInv_setStore {m : Store} (hm : StoreInv m) {node_id : String}
    {st : NodeSelectionState} (h : 0 < st.last_batch_size → st.active ≠ []) :
    StoreInv (setStore m node_id st) := by
  intro id stx hx hpos
  by_cases hid : id = node_id
  · subst hid
    simp only [setStore, if_pos rfl] at hx
    cases hx
    exact h hpos
  · simp only [setStore, if_neg hid] at hx
    exact hm id stx hx hpos

theorem storeInv_empty : StoreInv emptyStore := by
  intro id st h
  simp [emptyStore] at h

theorem mapPyInt_map_jint (ks : List Int) :
    mapPyInt (ks.map JVal.jint) = some ks := by
  induction ks with
  | nil => rfl
  | cons k ks ih => simp [mapPyInt, pyIntOfJVal, ih]

theorem resolved_active_default (batch_size : Nat) :
    resolved_active {} batch_size = fullRange batch_size := by
  have hseed : seeded_active {} batch_size = fullRange batch_size := by
    unfold seeded_active
    rfl
  unfold resolved_active
  rw [hseed, sanitize_fullRange, ite_self]

theorem fingerprint_inputs_eq (m : Store) (node_id : String) (c : Int) :
    fingerprint_inputs m node_id c
      = (m node_id).map
          (fun st => read_selection st ++ [(st.last_batch_size : Int), max 0 c]) := by
  cases h : m node_id with
  | none => simp [fingerprint_inputs, inspect_state, h]
  | some st =>
      cases hp : st.pending <;>
        simp [fingerprint_inputs, inspect_state, read_selection, h, hp]

/-- C6: for every node id and batch size, `resolve_selection_for_execution`
returns a pair whose two components are equal, the store's state for the
node afterwards has exactly that value as its active selection (with the
batch size recorded, the pending slot cleared and the preview fields
untouched), and the first-ever resolution for a fresh node with batch size
N returns the full range `[0..N)`. -/
theorem resolve_output_equals_next (m : Store) (node_id : String)
    (batch_size : Nat) :
    (resolve_selection_for_execution m node_id batch_size).1.1
        = (resolve_selection_for_execution m node_id batch_size).1.2 ∧
    (resolve_selection_for_execution m node_id batch_size).2 node_id
        = some { active := (resolve_selection_for_execution m node_id batch_size).1.1,
                 pending := none,
                 last_batch_size := batch_size,
                 preview_token := ((m node_id).getD {}).preview_token,
                 preview_data := ((m node_id).getD {}).preview_data } ∧
    (m node_id = none →
      (resolve_selection_for_execution m node_id batch_size).1.1
        = fullRange batch_size) := by
  refine ⟨rfl, ?_, ?_⟩
  · simp [resolve_selection_for_execution, setStore]
  · intro h
    simp only [resolve_selection_for_execution, h, Option.getD_none]
    rw [show resolved_pending {} batch_size = none by simp [resolved_pending]]
    simp only [Option.getD_none]
    exact resolved_active_default batch_size

/-- Witness for C6: the first-ever resolution of a fresh node with batch
size 3 outputs the full range. -/
theorem resolve_output_equals_next_witness :
    (resolve_selection_for_execution emptyStore nid 3).1.1 = fullRange 3 :=
  (resolve_output_equals_next emptyStore nid 3).2.2 rfl

/-- C8: after every call to `resolve_selection_for_execution`, the node has
state and its pending selection is absent (one-shot consumption). -/
theorem resolve_consumes_pending (m : Store) (node_id : String)
    (batch_size : Nat) :
    ((resolve_selection_for_execution m node_id batch_size).2 node_id).isSome
        = true ∧
    (((resolve_selection_for_execution m node_id batch_size).2 node_id).getD
        {}).pending = none := by
  constructor <;> simp [resolve_selection_for_execution, setStore]

/-- C10: `queue_pending_selection` modifies only the pending field: the
active selection, recorded batch size and both preview-cache fields are
unchanged, state exists afterwards, and a UI update arriving for a node
before any execution creates state with empty active selection and batch
size 0. -/
theorem queue_pending_frame (m : Store) (node_id : String) (sel : List Int) :
    (((queue_pending_selection m node_id sel).2 node_id).getD {}).active
        = ((m node_id).getD {}).active ∧
    (((queue_pending_selection m node_id sel).2 node_id).getD {}).last_batch_size
        = ((m node_id).getD {}).last_batch_size ∧
    (((queue_pending_selection m node_id sel).2 node_id).getD {}).preview_token
        = ((m node_id).getD {}).preview_token ∧
    (((queue_pending_selection m node_id sel).2 node_id).getD {}).preview_data
        = ((m node_id).getD {}).preview_data ∧
    ((queue_pending_selection m node_id sel).2 node_id).isSome = true ∧
    (m node_id = none →
      (((queue_pending_selection m node_id sel).2 node_id).getD {}).active = [] ∧
      (((queue_pending_selection m node_id sel).2 node_id).getD {}).last_batch_size
        = 0) := by
  refine ⟨?_, ?_, ?_, ?_, ?_, ?_⟩ <;>
    simp only [queue_pending_selection, setStore, eq_self_iff_true, if_true,
      Option.getD_some, Option.isSome_some]
  · intro h
    rw [h]
    exact ⟨rfl, rfl⟩

/-- Witness for C10: a UI update for a fresh node leaves the active
selection empty and the recorded batch size 0. -/
theorem queue_pending_frame_witness :
    (((queue_pending_selection emptyStore nid [3]).2 nid).getD {}).active = [] ∧
    (((queue_pending_selection emptyStore nid [3]).2 nid).getD {}).last_batch_size
      = 0 :=
  (queue_pending_frame emptyStore nid [3]).2.2.2.2.2 rfl

/-- C4: every Selection Store operation preserves the invariant that a
node with positive recorded batch size has a non-empty active selection;
and when sanitising the (seeded) active selection against the batch size
empties it, `get_state` resets it to the full index range.
(`inspect_state` returns a copy and by construction does not touch the
table.) -/
theorem selection_store_invariant (m : Store) (hm : StoreInv m)
    (node_id : String) (batch_size : Nat) (sel : List Int) :
    StoreInv (get_state m node_id batch_size).2 ∧
    StoreInv (resolve_selection_for_execution m node_id batch_size).2 ∧
    StoreInv (queue_pending_selection m node_id sel).2 ∧
    (sanitize_selection (seeded_active ((m node_id).getD {}) batch_size)
        batch_size = [] →
      (get_state m node_id batch_size).1.active = fullRange batch_size) := by
  refine ⟨?_, ?_, ?_, ?_⟩
  · apply storeInv_setStore hm
    intro hpos
    exact resolved_active_ne_nil _ hpos
  · apply storeInv_setStore hm
    intro hpos
    show (resolved_pending ((m node_id).getD {}) batch_size).getD
        (resolved_active ((m node_id).getD {}) batch_size) ≠ []
    cases hq : resolved_pending ((m node_id).getD {}) batch_size with
    | none => exact resolved_active_ne_nil _ hpos
    | some p =>
        intro hnil
        simp only [Option.getD_some] at hnil
        rw [hnil] at hq
        exact resolved_pending_ne_some_nil _ _ hq
  · apply storeInv_setStore hm
    intro hpos hnil
    cases hmn : m node_id with
    | none =>
        rw [hmn] at hpos
        simp at hpos
    | some st0 =>
        rw [hmn] at hpos hnil
        exact hm node_id st0 hmn hpos hnil
  · intro h
    show resolved_active ((m node_id).getD {}) batch_size = fullRange batch_size
    unfold resolved_active
    rw [if_pos h]

/-- Witness for C4: the invariant holds for the empty table and is
preserved by running each operation on it. -/
theorem selection_store_invariant_witness :
    StoreInv (get_state emptyStore nid 2).2 ∧
    StoreInv (resolve_selection_for_execution emptyStore nid 2).2 ∧
    StoreInv (queue_pending_selection emptyStore nid [0]).2 ∧
    (sanitize_selection (seeded_active ((emptyStore nid).getD {}) 2) 2 = [] →
      (get_state emptyStore nid 2).1.active = fullRange 2) :=
  selection_store_invariant emptyStore
    (by intro id st h; simp [emptyStore] at h) nid 2 [0]

/-- C7: the batch size `queue_pending_selection` sanitises against is
`max(last_known_batch_size, 1 + max(raw_selection))` whenever the raw
selection's maximum is non-negative, so indices beyond the last observed
batch size are retained; and a non-empty raw selection whose sanitisation
is empty resets the pending slot to absent, not to the empty list. -/
theorem queue_pending_expands_bound (m : Store) (node_id : String)
    (sel : List Int) :
    (0 ≤ pyMax sel (-1) →
      (queue_pending_selection m node_id sel).1
        = sanitize_selection sel
            (max (((m node_id).getD {}).last_batch_size)
              ((pyMax sel (-1)).toNat + 1))) ∧
    (sel ≠ [] → (queue_pending_selection m node_id sel).1 = [] →
      (queue_pending_selection m node_id sel).2 node_id
        = some { (m node_id).getD {} with pending := none }) := by
  constructor
  · intro h
    have hsz : inferred_batch_size sel = (pyMax sel (-1)).toNat + 1 := by
      unfold inferred_batch_size
      rw [if_pos h]
      omega
    simp only [queue_pending_selection, hsz]
  · intro hne hval
    have hq : queued_pending_value sel (queue_pending_selection m node_id sel).1
        = none := by
      unfold queued_pending_value
      rw [if_pos ⟨hne, hval⟩]
    simp only [queue_pending_selection, setStore, eq_self_iff_true, if_true]
    simp only [queue_pending_selection] at hq
    rw [hq]

/-- Witness for C7: with last known batch size 1, queuing `[0, 1]` is
sanitised against `max(1, 2) = 2` and keeps both indices; queuing the
all-negative selection `[-1]` on a fresh node resets the pending slot to
absent. -/
theorem queue_pending_expands_bound_witness :
    ((queue_pending_selection smallStore nid [0, 1]).1
      = sanitize_selection [0, 1]
          (max (((smallStore nid).getD {}).last_batch_size)
            ((pyMax [0, 1] (-1)).toNat + 1))) ∧
    ((queue_pending_selection emptyStore nid [-1]).2 nid
      = some { (emptyStore nid).getD {} with pending := none }) ∧
    (queue_pending_selection smallStore nid [0, 1]).1 = [0, 1] :=
  ⟨(queue_pending_expands_bound smallStore nid [0, 1]).1 (by decide),
   (queue_pending_expands_bound emptyStore nid [-1]).2 (by decide) (by decide),
   by decide⟩

/-- C5 (amended): when a pending selection sanitises to the empty list
against the current resolution's batch size, the resolution discards it
and the output is the sanitised active selection (with full-range reset),
which is non-empty whenever the batch size is positive. -/
theorem resolve_stale_pending_falls_back (m : Store) (node_id : String)
    (batch_size : Nat) (p : List Int)
    (hp : ((m node_id).getD {}).pending = some p) (_hne : p ≠ [])
    (hsan : sanitize_selection p batch_size = []) :
    (resolve_selection_for_execution m node_id batch_size).1.1
        = resolved_active ((m node_id).getD {}) batch_size ∧
    (0 < batch_size →
      (resolve_selection_for_execution m node_id batch_size).1.1 ≠ []) := by
  have h1 : ((m node_id).getD {}).pending ≠ none := by
    rw [hp]
    exact Option.some_ne_none p
  have h2 : ((m node_id).getD {}).pending.map
      (fun q => sanitize_selection q batch_size) = some [] := by
    rw [hp]
    simp [hsan]
  have hrp : resolved_pending ((m node_id).getD {}) batch_size = none := by
    unfold resolved_pending
    rw [if_pos ⟨h1, h2⟩]
  constructor
  · simp only [resolve_selection_for_execution, hrp, Option.getD_none]
  · intro hbs
    simp only [resolve_selection_for_execution, hrp, Option.getD_none]
    exact resolved_active_ne_nil _ hbs

/-- Witness for C5 (amended): with active `[0]`, queued pending `[5]` and
current batch size 2, the resolution outputs the sanitised active
selection and it is non-empty. -/
theorem resolve_stale_pending_falls_back_witness :
    (resolve_selection_for_execution fpStoreA nid 2).1.1
        = resolved_active ((fpStoreA nid).getD {}) 2 ∧
    (resolve_selection_for_execution fpStoreA nid 2).1.1 ≠ [] :=
  ⟨(resolve_stale_pending_falls_back fpStoreA nid 2 [5] (by decide) (by decide)
      (by decide)).1,
   (resolve_stale_pending_falls_back fpStoreA nid 2 [5] (by decide) (by decide)
      (by decide)).2 (by decide)⟩

/-- Counterexample to C5 as stated: on a fresh node, queue the originally
non-empty pending `[5]`, then resolve with batch size 0 (an empty batch).
Every queued index is out of range, the pending selection is discarded and
the resolution falls back to the active selection — but the output is the
empty list, so the claim's unconditional "never to an empty output" fails. -/
theorem resolve_stale_pending_empty_batch :
    ((staleStore nid).getD {}).pending = some [5] ∧
    sanitize_selection [5] 0 = [] ∧
    (resolve_selection_for_execution staleStore nid 0).1.1 = [] := by
  refine ⟨by decide, by decide, by decide⟩

/-- C3 (amended): with equal declared parameters, the fingerprints of two
states for a node are equal exactly when the selection the fingerprint
reads (pending if queued, else active) and the last known batch size are
equal — the fingerprint is a faithful function of that derived data, and
computing it goes through the read-only `inspect_state` copy, leaving the
table untouched by construction. -/
theorem fingerprint_inputs_characterization (m m2 : Store) (node_id : String)
    (c : Int) (stA stB : NodeSelectionState)
    (hA : m node_id = some stA) (hB : m2 node_id = some stB) :
    fingerprint_inputs m node_id c = fingerprint_inputs m2 node_id c ↔
      (read_selection stA = read_selection stB ∧
       stA.last_batch_size = stB.last_batch_size) := by
  rw [fingerprint_inputs_eq, fingerprint_inputs_eq, hA, hB]
  simp only [Option.map_some', Option.some.injEq]
  constructor
  · intro h
    have hlen : ([(stA.last_batch_size : Int), max 0 c]).length
        = ([(stB.last_batch_size : Int), max 0 c]).length := rfl
    obtain ⟨hsel, htail⟩ := List.append_inj' h hlen
    refine ⟨hsel, ?_⟩
    have hhead : (stA.last_batch_size : Int) = (stB.last_batch_size : Int) := by
      injection htail
    exact_mod_cast hhead
  · rintro ⟨h1, h2⟩
    rw [h1, h2]

/-- Witness for C3 (amended): the characterisation applied to the two
concrete reachable states of `fpStoreA` and `fpStoreB`. -/
theorem fingerprint_inputs_characterization_witness :
    fingerprint_inputs fpStoreA nid 0 = fingerprint_inputs fpStoreB nid 0 ↔
      (read_selection stA0 = read_selection stB0 ∧
       stA0.last_batch_size = stB0.last_batch_size) :=
  fingerprint_inputs_characterization fpStoreA fpStoreB nid 0 stA0 stB0
    (by decide) (by decide)

/-- Counterexample to C3 as stated: the reachable states behind
`fpStoreA` (active `[0]`, pending `[5]`, batch size 2) and `fpStoreB`
(active `[1]`, pending `[5]`, batch size 2) have equal fingerprints under
equal declared parameters, yet their next resolved outputs (batch size 2)
differ — so "fingerprint differs iff the next resolved output differs"
fails in the "only equal when outputs equal" direction. -/
theorem fingerprint_equal_but_next_output_differs :
    fingerprint_inputs fpStoreA nid 0 = fingerprint_inputs fpStoreB nid 0 ∧
    (resolve_selection_for_execution fpStoreA nid 2).1.1
      ≠ (resolve_selection_for_execution fpStoreB nid 2).1.1 := by
  refine ⟨by decide, by decide⟩

/-- C1 evaluation: after an execution with batch size 2 (active `[0, 1]`),
the UI posts an empty selection, which `queue_pending_selection` records
as the explicit cleared marker `pending = []`; yet the next resolution
outputs the previous active selection `[0, 1]` instead of the empty
selection, because `resolve_selection_for_execution` treats the cleared
marker exactly like a stale pending selection and discards it. -/
theorem cleared_pending_not_honored :
    ((clearedStore2 nid).getD {}).pending = some [] ∧
    (resolve_selection_for_execution clearedStore2 nid 2).1.1 = [0, 1] ∧
    (resolve_selection_for_execution clearedStore2 nid 2).1.1 ≠ [] := by
  refine ⟨by decide, by decide, by decide⟩

/-- C2 evaluation: encoding a 2-frame batch with signature string `sig`
stores the *character tuple* of the signature as the cached token; on a
second call with the identical batch (same signature, non-empty cached
data) the Python comparison `cached token == signature` compares a tuple
against a string and is `False`, so both frames are encoded again instead
of the cached previews being reused. -/
theorem preview_cache_never_reused :
    (execute_preview_step emptyStore nid "sig" 2 (fun i => toString i)).1.2 = 2 ∧
    ((previewStore1 nid).getD {}).preview_token = some ("sig".data) ∧
    ((previewStore1 nid).getD {}).preview_data ≠ [] ∧
    (execute_preview_step previewStore1 nid "sig" 2 (fun i => toString i)).1.2
      = 2 := by
  refine ⟨by decide, by decide, by decide, by decide⟩

/-- C9 (amended): for a decoded JSON body with a (truthy, string) node id
and a list selection, the endpoint answers
`400 selection_contains_non_int` exactly when some element cannot be
converted by Python's `int()`; when every element converts (integers, and
also coercible values such as numeric strings), the converted list is
queued and the response is `200` echoing the sanitised selection — in
particular for a list of integers, possibly partially out of range. -/
theorem update_selection_int_coercion (m : Store) (body : List (String × JVal))
    (s : String) (xs : List JVal)
    (hnid : jGet body nodeIdKey = some (JVal.jstr s)) (hs : s ≠ "")
    (hsel : jGet body selectionKey = some (JVal.jlist xs)) :
    (mapPyInt xs = none →
      update_selection m body
        = (.errorResp 400 "selection_contains_non_int", m)) ∧
    (∀ ns, mapPyInt xs = some ns →
      update_selection m body
        = (.okResp (queue_pending_selection m s ns).1,
           (queue_pending_selection m s ns).2)) ∧
    (∀ ks : List Int, xs = ks.map JVal.jint →
      (update_selection m body).1
        = .okResp ((queue_pending_selection m s ks).1)) := by
  have ht : jTruthy (JVal.jstr s) = true := by
    simp [jTruthy]
    exact hs
  have main : ∀ r, mapPyInt xs = r →
      update_selection m body
        = (match r with
           | none => (.errorResp 400 "selection_contains_non_int", m)
           | some ns =>
              (.okResp (queue_pending_selection m s ns).1,
               (queue_pending_selection m s ns).2)) := by
    intro r hr
    unfold update_selection
    rw [hnid]
    simp only [ht, if_true, hsel, Option.getD_some]
    rw [hr]
    cases r with
    | none => rfl
    | some ns => rfl
  refine ⟨fun h => main none h, fun ns h => main (some ns) h, ?_⟩
  intro ks hks
  have h := main (some ks) (by rw [hks]; exact mapPyInt_map_jint ks)
  rw [h]

/-- Witness for C9 (amended): a selection containing `null` is rejected
with `selection_contains_non_int`, while the integer selection
`[4, 1, 1, 99]` is queued and echoed back sanitised. -/
theorem update_selection_int_coercion_witness :
    update_selection emptyStore c9bodyBad
        = (.errorResp 400 "selection_contains_non_int", emptyStore) ∧
    (update_selection emptyStore c9bodyGood).1
        = .okResp ((queue_pending_selection emptyStore nid [4, 1, 1, 99]).1) :=
  ⟨(update_selection_int_coercion emptyStore c9bodyBad nid [JVal.jnull]
      rfl (by decide) rfl).1 (by decide),
   (update_selection_int_coercion emptyStore c9bodyGood nid
      [JVal.jint 4, JVal.jint 1, JVal.jint 1, JVal.jint 99]
      rfl (by decide) rfl).2.2 [4, 1, 1, 99] rfl⟩

/-- Counterexample to C9 as stated: a selection list containing the
*string* `"3"` — not an integer — is not rejected: Python's `int("3")`
converts it, so the endpoint answers `200 {selection: [3]}` rather than
`400 selection_contains_non_int`. -/
theorem update_selection_numeric_string_accepted :
    (update_selection emptyStore c9body).1 = .okResp [3] ∧
    (update_selection emptyStore c9body).1
      ≠ .errorResp 400 "selection_contains_non_int" := by
  refine ⟨by decide, by decide⟩
